import Mathlib

/-!
# HyperDash — verification of the specified behaviours

Shallow embedding of the HyperDash dashboard application (TypeScript/React)
together with proofs of the behavioural claims of its specification.

Each section embeds one component, translated directly from the source:

* `Storage`   — the localStorage adapter (`app/lib/utils.ts`)
* `Focus`     — the focus arbiter (`FocusContext.tsx`)
* `Router`    — the global keyboard-shortcut router (`useKeyboardShortcuts.ts`)
* `Pomodoro`  — the Pomodoro state machine of `ClockWidget.tsx`
* `Selection` — the selection codec of `NotepadWidget.tsx`
* `Notepad`   — the notepad tab collection of `NotepadWidget.tsx`

Browser state (the DOM, timers, localStorage) is made explicit: stateful
handlers become pure functions on explicit state records, `setTimeout`
deadlines become `Option Nat` fields fired by explicit timer-event
functions, and fallible operations return `Option`.
-/

namespace HyperDash

/-! ## Storage: the localStorage adapter (`app/lib/utils.ts`)

The browser storage is a single mutable string-to-string namespace; we model
it as a total map `String → Option String`.  The adapter functions guard on
`typeof window === 'undefined'` (modelled by the `windowDefined` flag) and
wrap the raw host calls in try/catch; the claims assume the host operations
do not fail, so the model gives the success path of the try block (on a host
failure the source logs and no-ops, which no claim covers). -/

def Store : Type := String → Option String

/-- `localStorage.getItem key`. -/
def Store.getItem (st : Store) (key : String) : Option String := st key

/-- `localStorage.setItem key value` (success path of the host call). -/
def Store.setItem (st : Store) (key value : String) : Store :=
  fun q => if q = key then some value else st q

/-- `localStorage.removeItem key` (success path of the host call). -/
def Store.removeItem (st : Store) (key : String) : Store :=
  fun q => if q = key then none else st q

/-- `getFromLocalStorage` from `app/lib/utils.ts`. -/
def getFromLocalStorage (windowDefined : Bool) (st : Store) (key : String) :
    Option String :=
  if !windowDefined then none
  else st.getItem key

/-- `saveToLocalStorage` from `app/lib/utils.ts`; returns the updated store. -/
def saveToLocalStorage (windowDefined : Bool) (st : Store) (key value : String) :
    Store :=
  if !windowDefined then st
  else st.setItem key value

/-- `removeFromLocalStorage` from `app/lib/utils.ts`; returns the updated store. -/
def removeFromLocalStorage (windowDefined : Bool) (st : Store) (key : String) :
    Store :=
  if !windowDefined then st
  else st.removeItem key

/-! ## Focus: the focus arbiter (`FocusContext.tsx`)

State of `FocusProvider`.  The two `setTimeout` handles (`mouseTimeoutRef`,
`keyboardTimeoutRef`) are modelled as optional absolute deadlines; a cleared
or absent timeout is `none`, and a pending timeout callback is delivered by
the explicit `fireMouseTimeout` / `fireKeyboardTimeout` events once the
current time has reached the deadline. -/

structure FocusState where
  focusedPosition : Option Int
  isMouseActive : Bool
  keyboardControl : Bool
  mouseDeadline : Option Nat
  keyboardDeadline : Option Nat
deriving Repr, DecidableEq

/-- `handleMouseStillness`: (re)schedules the 500ms mouse-stillness timeout
(clearing any pending one). -/
def handleMouseStillness (now : Nat) (s : FocusState) : FocusState :=
  { s with mouseDeadline := some (now + 500) }

/-- Delivery of the pending mouse-stillness timeout: once its deadline has
passed it sets `isMouseActive := false`. -/
def fireMouseTimeout (now : Nat) (s : FocusState) : FocusState :=
  match s.mouseDeadline with
  | some d => if d ≤ now then { s with isMouseActive := false, mouseDeadline := none } else s
  | none => s

/-- Delivery of the pending keyboard-control timeout: once its deadline has
passed it sets `keyboardControl := false`. -/
def fireKeyboardTimeout (now : Nat) (s : FocusState) : FocusState :=
  match s.keyboardDeadline with
  | some d => if d ≤ now then { s with keyboardControl := false, keyboardDeadline := none } else s
  | none => s

/-- `setMouseActive` from `FocusContext.tsx`. -/
def setMouseActive (active : Bool) (now : Nat) (s : FocusState) : FocusState :=
  if active then
    handleMouseStillness now { s with isMouseActive := true }
  else
    { s with isMouseActive := false, mouseDeadline := none }

/-- `setKeyboardControlWithTimeout` from `FocusContext.tsx`: sets the flag,
and when granting control clears any pending expiry timeout and schedules a
fresh one 2000ms out; when revoking it clears the pending timeout. -/
def setKeyboardControlWithTimeout (control : Bool) (now : Nat) (s : FocusState) :
    FocusState :=
  if control then
    { s with keyboardControl := true, keyboardDeadline := some (now + 2000) }
  else
    { s with keyboardControl := false, keyboardDeadline := none }

/-- `setFocusedPositionFromKeyboard` from `FocusContext.tsx`. -/
def setFocusedPositionFromKeyboard (position : Option Int) (now : Nat)
    (s : FocusState) : FocusState :=
  setKeyboardControlWithTimeout true now
    (setMouseActive false now { s with focusedPosition := position })

/-- `setFocusedPositionFromMouse` from `FocusContext.tsx`: only allowed to
change focus if keyboard does not have control. -/
def setFocusedPositionFromMouse (position : Option Int) (now : Nat)
    (s : FocusState) : FocusState :=
  if !s.keyboardControl then
    setKeyboardControlWithTimeout false now { s with focusedPosition := position }
  else s

/-- `handleMouseMove` from `FocusContext.tsx`: marks the mouse active,
restarts the stillness debounce, and revokes any held keyboard control. -/
def handleMouseMove (now : Nat) (s : FocusState) : FocusState :=
  let s1 := handleMouseStillness now { s with isMouseActive := true }
  if s1.keyboardControl then
    { s1 with keyboardControl := false, keyboardDeadline := none }
  else s1

/-! ## JavaScript `parseInt`

`parseInt(s)` (radix unspecified): leading whitespace is skipped, an
optional sign is consumed, then the longest leading run of decimal digits
is read, ignoring any trailing characters; the result is `NaN` (here
`none`) when no digit follows.  (The hexadecimal `0x` prefix of the host
function is not modelled: the call sites parse single key names and
persisted decimal counters, never `0x`-prefixed strings.) -/

def parseDigitsAux : List Char → Nat → Nat
  | c :: rest, acc =>
    if c.isDigit then parseDigitsAux rest (acc * 10 + (c.toNat - 48)) else acc
  | [], acc => acc

/-- Longest leading decimal-digit run of a character list; `none` when the
list does not start with a digit. -/
def parseDigits : List Char → Option Nat
  | c :: rest => if c.isDigit then some (parseDigitsAux rest (c.toNat - 48)) else none
  | [] => none

/-- JavaScript `parseInt(s)` with the default radix, as an `Option Int`
(`none` encodes `NaN`).  The host function skips leading whitespace only. -/
def parseIntJS (s : String) : Option Int :=
  match s.toList.dropWhile (fun c => c.isWhitespace) with
  | '-' :: rest => (parseDigits rest).map (fun n => -(n : Int))
  | '+' :: rest => (parseDigits rest).map (fun n => (n : Int))
  | cs => (parseDigits cs).map (fun n => (n : Int))

/-! ## Pomodoro: the timer state machine of `ClockWidget.tsx` -/

inductive TimerMode where
  | work
  | shortBreak
  | longBreak
deriving Repr, DecidableEq

/-- `WORK_DURATION`: 25 minutes in seconds. -/
def WORK_DURATION : Int := 25 * 60

/-- `SHORT_BREAK_DURATION`: 5 minutes in seconds. -/
def SHORT_BREAK_DURATION : Int := 5 * 60

/-- `LONG_BREAK_DURATION`: 15 minutes in seconds. -/
def LONG_BREAK_DURATION : Int := 15 * 60

/-- The Pomodoro-related state of `ClockWidget`. -/
structure PomodoroState where
  timeLeft : Int
  isRunning : Bool
  mode : TimerMode
  pomodoroCount : Int
deriving Repr, DecidableEq

/-- The initial Pomodoro state of `ClockWidget` (`useState` initialisers). -/
def initialPomodoroState : PomodoroState :=
  { timeLeft := WORK_DURATION, isRunning := false, mode := .work, pomodoroCount := 0 }

/-- `handleTimerComplete` from `ClockWidget.tsx` (mode-cycling part; the
notification beep is an audio side effect with no state).  A completed work
period increments the count and routes to the long break exactly when the
new count is a multiple of 4; a completed break returns to work with the
full work duration. -/
def handleTimerComplete (s : PomodoroState) : PomodoroState :=
  let s := { s with isRunning := false }
  if s.mode = .work then
    let newCount := s.pomodoroCount + 1
    if newCount % 4 = 0 then
      { s with pomodoroCount := newCount, mode := .longBreak, timeLeft := LONG_BREAK_DURATION }
    else
      { s with pomodoroCount := newCount, mode := .shortBreak, timeLeft := SHORT_BREAK_DURATION }
  else
    { s with mode := .work, timeLeft := WORK_DURATION }

/-- `handleSkip` from `ClockWidget.tsx`: forces the same transition as a
countdown completion, early. -/
def handleSkip (s : PomodoroState) : PomodoroState :=
  let s := { s with isRunning := false }
  if s.mode = .work then
    let newCount := s.pomodoroCount + 1
    if newCount % 4 = 0 then
      { s with pomodoroCount := newCount, mode := .longBreak, timeLeft := LONG_BREAK_DURATION }
    else
      { s with pomodoroCount := newCount, mode := .shortBreak, timeLeft := SHORT_BREAK_DURATION }
  else
    { s with mode := .work, timeLeft := WORK_DURATION }

/-- `handleReset` from `ClockWidget.tsx`: pauses and restores the current
mode's fixed duration without changing mode. -/
def handleReset (s : PomodoroState) : PomodoroState :=
  let s := { s with isRunning := false }
  if s.mode = .work then { s with timeLeft := WORK_DURATION }
  else if s.mode = .shortBreak then { s with timeLeft := SHORT_BREAK_DURATION }
  else { s with timeLeft := LONG_BREAK_DURATION }

/-- The strings read back from localStorage by the hydration effect of
`ClockWidget` (`none` = key absent). -/
structure SavedPomodoro where
  savedTimeLeft : Option String
  savedIsRunning : Option String
  savedMode : Option String
  savedCount : Option String
deriving Repr, DecidableEq

/-- JavaScript truthiness of a nullable string: `null` and `""` are falsy. -/
def truthyStr : Option String → Bool
  | some s => !(s = "")
  | none => false

/-- Decode of the persisted mode string (`savedMode as TimerMode`).  The
source performs an unchecked cast; for a string other than the three mode
names the cast would store the raw string, which no later read
distinguishes from leaving the mode alone, so the model keeps the current
mode in that corner. -/
def castTimerMode (s : String) (current : TimerMode) : TimerMode :=
  if s = "work" then .work
  else if s = "shortBreak" then .shortBreak
  else if s = "longBreak" then .longBreak
  else current

/-- The `savedTimeLeft` block of the load-on-mount hydration effect of
`ClockWidget.tsx`: applied only when the string is truthy and parses to a
positive number (`NaN > 0` is false in the host language, hence the `none`
branch leaves the state alone). -/
def hydrateTimeLeft (saved : Option String) (s : PomodoroState) : PomodoroState :=
  match saved with
  | some str =>
    if truthyStr (some str) then
      match parseIntJS str with
      | some n => if n > 0 then { s with timeLeft := n } else s
      | none => s
    else s
  | none => s

/-- The `savedMode` block of the hydration effect (see `hydratePomodoro`). -/
def hydrateMode (saved : Option String) (s : PomodoroState) : PomodoroState :=
  match saved with
  | some str =>
    if truthyStr (some str) then { s with mode := castTimerMode str s.mode } else s
  | none => s

/-- The `savedCount` block of the hydration effect (see `hydratePomodoro`). -/
def hydrateCount (saved : Option String) (s : PomodoroState) : PomodoroState :=
  match saved with
  | some str =>
    if truthyStr (some str) then
      match parseIntJS str with
      | some n => { s with pomodoroCount := n }
      | none => s
    else s
  | none => s

/-- The load-on-mount hydration effect of `ClockWidget.tsx` (lines 31–51):
the three restore blocks in source order.  `savedIsRunning` is read by the
source but never applied — the running flag is not restored (an unparseable
`savedCount`, whose `parseInt` is `NaN`, is modelled as leaving the count;
no claim reads that corner). -/
def hydratePomodoro (saved : SavedPomodoro) (s : PomodoroState) : PomodoroState :=
  hydrateCount saved.savedCount
    (hydrateMode saved.savedMode
      (hydrateTimeLeft saved.savedTimeLeft s))

/-! ## Router: the global keyboard-shortcut router

Embedded from the current `useKeyboardShortcuts` hook (the revision that
coexists with the settings modal, whose `data-settings-modal` marker it
queries).  A key-chord event either dispatches exactly one semantic action
or falls through; `handleKeyDown` returns that outcome.  The `cycleFocus`
action stands for the whole Tab widget-cycling block (blur of the editable
element, `getNextFocusPosition` on the current configuration, and the
keyboard-originated focus request). -/

/-- `WidgetSlot` from `app/lib/widgetConfig.ts`; `none` = empty slot, the
widget type names are the `WidgetType` enum strings. -/
structure WidgetSlot where
  position : Int
  widgetType : Option String
deriving Repr, DecidableEq

/-- `DEFAULT_CONFIGURATION` from `app/lib/widgetConfig.ts`. -/
def DEFAULT_CONFIGURATION : List WidgetSlot :=
  [⟨1, some "clock"⟩, ⟨2, some "weather"⟩, ⟨3, some "system"⟩,
   ⟨4, some "todo"⟩, ⟨5, some "notepad"⟩]

/-- The fields of the browser `KeyboardEvent` that the router reads. -/
structure KeyEvent where
  key : String
  shiftKey : Bool
  metaKey : Bool
  ctrlKey : Bool
  altKey : Bool
deriving Repr, DecidableEq

/-- The ambient document state the router consults: whether the active
element is a text-editing element (`isEditingText()`), whether the settings
modal is mounted, and the widget configuration
(`getWidgetConfiguration()`). -/
structure RouterEnv where
  editingText : Bool
  settingsOpen : Bool
  config : List WidgetSlot
deriving Repr, DecidableEq

/-- The semantic action a key event dispatches (the custom events fired on
`window`, the focus requests, or nothing). -/
inductive RouterAction where
  | noAction
  | closeModals
  | cycleFocus (backward : Bool)
  | focusWidget (position : Int)
  | openWallpaperUpload
  | toggleClockFormat
  | exportData
  | importData
  | openSettings
deriving Repr, DecidableEq

/-- The tail of `handleKeyDown`: the named single-key shortcuts, split on
`shiftKey`. -/
def shortcutDispatch (e : KeyEvent) : RouterAction :=
  if e.shiftKey then
    if e.key = "W" ∨ e.key = "w" then .openWallpaperUpload
    else if e.key = "C" ∨ e.key = "c" then .toggleClockFormat
    else if e.key = "E" ∨ e.key = "e" then .exportData
    else if e.key = "I" ∨ e.key = "i" then .importData
    else .noAction
  else
    if e.key = "S" ∨ e.key = "s" then .openSettings
    else .noAction

/-- `handleKeyDown` of `useKeyboardShortcuts`: escape always fires; any
meta/ctrl/alt modifier suppresses everything else; Tab cycles focus unless
the settings modal owns it; other keys are dropped while editing text or
while the settings modal is open; digit keys 1–9 focus the matching
non-empty widget slot; remaining keys hit the named shortcuts. -/
def handleKeyDown (e : KeyEvent) (env : RouterEnv) : RouterAction :=
  if e.key = "Escape" then .closeModals
  else if e.metaKey || e.ctrlKey || e.altKey then .noAction
  else if e.key = "Tab" then
    if env.settingsOpen then .noAction
    else if !e.shiftKey then .cycleFocus false
    else .cycleFocus true
  else if env.editingText then .noAction
  else if env.settingsOpen then .noAction
  else
    match parseIntJS e.key with
    | some numKey =>
      if 1 ≤ numKey ∧ numKey ≤ 9 then
        match env.config.find? (fun slot => slot.position == numKey) with
        | some slot => if slot.widgetType ≠ none then .focusWidget numKey else .noAction
        | none => .noAction
      else shortcutDispatch e
    | none => shortcutDispatch e

/-! ## Selection: the selection codec of `NotepadWidget.tsx`

The editable surface's DOM subtree is a tree of text nodes and element
nodes.  DOM nodes have reference identity and a unique parent chain, so a
live node lying inside the editable root is identified exactly by its
root-relative child-index path; we represent node references inside the
root by those paths.  Under this representation:

* `isNodeWithin(node, root)` (the parent-chain walk) holds exactly when
  the node's path resolves under the root;
* `getNodePath(node, root)` (the parent-chain walk collecting
  `indexOf(parent.childNodes, current)`, which is identity-based `indexOf`)
  returns exactly the representing path, since each node is the unique
  occupant of its index in its parent. -/

inductive DomNode where
  | text (content : String)
  | element (children : List DomNode)
deriving Repr

/-- `node.childNodes`: a text node has no children. -/
def childNodes : DomNode → List DomNode
  | .text _ => []
  | .element cs => cs

/-- Content length of a node as the codec measures it: `textContent.length`
for a text node, `childNodes.length` for an element. -/
def nodeLength : DomNode → Nat
  | .text s => s.length
  | .element cs => cs.length

/-- `getNodeFromPath` from `NotepadWidget.tsx`: walks the child-index path
down from `root`, giving up (`none`) as soon as an index is out of bounds
(`index >= current.childNodes.length`, which also covers descending into a
childless text node). -/
def getNodeFromPath : DomNode → List Nat → Option DomNode
  | root, [] => some root
  | root, index :: rest =>
    match (childNodes root)[index]? with
    | some child => getNodeFromPath child rest
    | none => none

/-- `clampOffsetForNode` from `NotepadWidget.tsx`. -/
def clampOffsetForNode (node : DomNode) (offset : Nat) : Nat :=
  match node with
  | .text s => min offset s.length
  | .element cs => min offset cs.length

/-- A live `Range` whose endpoint containers lie inside the editable root,
identified by their root-relative paths (see the section comment). -/
structure DomRange where
  startPath : List Nat
  startOffset : Nat
  endPath : List Nat
  endOffset : Nat
deriving Repr, DecidableEq

/-- The `SerializedSelection` record of `NotepadWidget.tsx`. -/
structure SerializedSelection where
  startPath : List Nat
  startOffset : Nat
  endPath : List Nat
  endOffset : Nat
deriving Repr, DecidableEq

/-- `isNodeWithin` from `NotepadWidget.tsx`, on path-identified nodes: the
parent-chain walk reaches `root` exactly when the path resolves. -/
def isNodeWithin (root : DomNode) (nodePath : List Nat) : Bool :=
  (getNodeFromPath root nodePath).isSome

/-- `serializeRange` from `NotepadWidget.tsx`: `none` when either endpoint
is outside `root`; otherwise records `getNodePath` of each container (= the
identifying path) and the raw offsets. -/
def serializeRange (r : DomRange) (root : DomNode) : Option SerializedSelection :=
  if !(isNodeWithin root r.startPath) || !(isNodeWithin root r.endPath) then none
  else some
    { startPath := r.startPath
      startOffset := r.startOffset
      endPath := r.endPath
      endOffset := r.endOffset }

/-- `deserializeRange` from `NotepadWidget.tsx`: resolves both paths,
returning `none` if either fails, and clamps each offset to the resolved
node's content length (`document.createRange` with in-bounds offsets cannot
throw, and the function is total). -/
def deserializeRange (data : SerializedSelection) (root : DomNode) : Option DomRange :=
  match getNodeFromPath root data.startPath, getNodeFromPath root data.endPath with
  | some startNode, some endNode =>
    some
      { startPath := data.startPath
        startOffset := clampOffsetForNode startNode data.startOffset
        endPath := data.endPath
        endOffset := clampOffsetForNode endNode data.endOffset }
  | _, _ => none

/-! ## Notepad: the tab collection of `NotepadWidget.tsx`

State relevant to tab deletion: the tab list, the active tab id, the
editable surface (`editorRef.current.innerHTML`, `none` while the editor is
unmounted) and the `content` state mirror.  The selection-snapshot
bookkeeping of `deleteTab` (`saveCurrentSelection()` and the `delete` of
the closed tab's snapshot) touches only `savedSelectionsRef`, which none of
the state below reads, so it is not carried here. -/

structure NotepadTab where
  id : String
  name : String
  content : String
deriving Repr, DecidableEq

/-- The C9-relevant state of `NotepadWidget`. -/
structure NotepadState where
  tabs : List NotepadTab
  activeTabId : Option String
  editorContent : Option String
  contentState : String
deriving Repr, DecidableEq

/-- First half of `deleteTab`: "Save current tab content before deleting if
it's the active tab" — when the closed tab is active and the editor is
mounted, the active tab's stored content is refreshed from the editor. -/
def deleteTabSaveContent (tabId : String) (s : NotepadState) : NotepadState :=
  match s.editorContent with
  | some current =>
    if s.activeTabId = some tabId then
      { s with tabs := s.tabs.map fun t =>
          if t.id = tabId then { t with content := current } else t }
    else s
  | none => s

/-- Second half of `deleteTab`: the main `setTabs` updater.  Closing the
last remaining tab clears its content instead of removing it (when the
editor is unmounted the updater returns the list unchanged); otherwise the
tab is filtered out and, if it was active, a neighbour becomes active
(`findIndex` yields `-1` when the id is absent, and `-1 > 0` is false, so
the new active index is then `0`; the source reads `newTabs[i].id`, which
presupposes the collection is non-empty). -/
def deleteTabUpdate (tabId : String) (s : NotepadState) : NotepadState :=
  if s.tabs.length = 1 then
    match s.editorContent, s.tabs with
    | some _, t0 :: _ =>
      { s with tabs := [{ t0 with content := "" }]
               editorContent := some ""
               contentState := "" }
    | some _, [] => s
    | none, _ => s
  else
    let newTabs := s.tabs.filter fun t => t.id != tabId
    if s.activeTabId = some tabId then
      let newActiveIndex :=
        match s.tabs.findIdx? (fun t => t.id == tabId) with
        | some index => if 0 < index then index - 1 else 0
        | none => 0
      match newTabs[newActiveIndex]? with
      | some t => { s with tabs := newTabs, activeTabId := some t.id }
      | none => { s with tabs := newTabs }
    else
      { s with tabs := newTabs }

/-- `deleteTab` from `NotepadWidget.tsx` (state-relevant part). -/
def deleteTab (tabId : String) (s : NotepadState) : NotepadState :=
  deleteTabUpdate tabId (deleteTabSaveContent tabId s)

end HyperDash

namespace HyperDash

/-! ### Claims about the storage adapter and the focus arbiter -/

/-- **C7.** For every key `K` and string value `V`, reading `K` right after
saving `V` under `K` returns `V`, and reading `K` right after removing `K`
returns `none` (the underlying storage operations are assumed not to fail,
and the code runs in a browser, i.e. `window` is defined). -/
theorem get_after_save_and_remove (st : Store) (K V : String) :
    getFromLocalStorage true (saveToLocalStorage true st K V) K = some V ∧
    getFromLocalStorage true (removeFromLocalStorage true st K) K = none := by
  constructor
  · simp [getFromLocalStorage, saveToLocalStorage, Store.getItem, Store.setItem]
  · simp [getFromLocalStorage, removeFromLocalStorage, Store.getItem, Store.removeItem]

/-- **C1.** While keyboard control is active, `setFocusedPositionFromMouse`
is a silent no-op (the whole state is unchanged, in particular
`focusedPosition`); once the keyboard-control window has expired (its
timeout has fired), `setFocusedPositionFromMouse p` sets
`focusedPosition` to `p`. -/
theorem mouse_focus_blocked_then_allowed (p : Option Int) (s : FocusState)
    (now t u : Nat) :
    (s.keyboardControl = true → setFocusedPositionFromMouse p now s = s) ∧
    (∀ d, s.keyboardDeadline = some d → d ≤ t →
      (setFocusedPositionFromMouse p u (fireKeyboardTimeout t s)).focusedPosition = p) := by
  constructor
  · intro h
    simp [setFocusedPositionFromMouse, h]
  · intro d hd hdt
    simp only [fireKeyboardTimeout, hd, if_pos hdt]
    simp [setFocusedPositionFromMouse, setKeyboardControlWithTimeout]

/-- Witness for C1 at a concrete state: keyboard control held with a pending
deadline at 1000; the mouse request at time 100 is dropped wholesale, and
after the timeout fires at time 1500 a mouse request takes effect. -/
theorem mouse_focus_blocked_then_allowed_witness :
    (setFocusedPositionFromMouse (some 3) 100
      ⟨some 1, false, true, none, some 1000⟩ =
        ⟨some 1, false, true, none, some 1000⟩) ∧
    (setFocusedPositionFromMouse (some 3) 1600
      (fireKeyboardTimeout 1500 ⟨some 1, false, true, none, some 1000⟩)).focusedPosition =
      some 3 := by
  refine ⟨?_, ?_⟩
  · exact (mouse_focus_blocked_then_allowed (some 3)
      ⟨some 1, false, true, none, some 1000⟩ 100 1500 1600).1 rfl
  · exact (mouse_focus_blocked_then_allowed (some 3)
      ⟨some 1, false, true, none, some 1000⟩ 100 1500 1600).2 1000 rfl (by decide)

/-- **C6.** From any state — in particular even when the mouse is active —
`setFocusedPositionFromKeyboard p` sets `focusedPosition` to `p`, clears the
mouse-active flag, grants keyboard control, and (re)schedules its expiry
deadline a full 2000ms from now, i.e. the window is restarted on every
keyboard-originated request. -/
theorem keyboard_focus_always_wins (p : Option Int) (now : Nat) (s : FocusState) :
    (setFocusedPositionFromKeyboard p now s).focusedPosition = p ∧
    (setFocusedPositionFromKeyboard p now s).isMouseActive = false ∧
    (setFocusedPositionFromKeyboard p now s).keyboardControl = true ∧
    (setFocusedPositionFromKeyboard p now s).keyboardDeadline = some (now + 2000) := by
  refine ⟨?_, ?_, ?_, ?_⟩ <;>
    simp [setFocusedPositionFromKeyboard, setKeyboardControlWithTimeout, setMouseActive]

/-! ### Claims about the Pomodoro state machine -/

/-- **C5.** A work completion (countdown reaching zero via
`handleTimerComplete`, or a manual `handleSkip`) whose cumulative
completed-work count is a multiple of 4 transitions to the long break;
every other work completion transitions to the short break; and completing
or skipping either break returns to work with the full work duration. -/
theorem pomodoro_cycle (s : PomodoroState) :
    (s.mode = .work → (s.pomodoroCount + 1) % 4 = 0 →
      (handleTimerComplete s).mode = .longBreak ∧ (handleSkip s).mode = .longBreak) ∧
    (s.mode = .work → (s.pomodoroCount + 1) % 4 ≠ 0 →
      (handleTimerComplete s).mode = .shortBreak ∧ (handleSkip s).mode = .shortBreak) ∧
    (s.mode ≠ .work →
      (handleTimerComplete s).mode = .work ∧
      (handleTimerComplete s).timeLeft = WORK_DURATION ∧
      (handleSkip s).mode = .work ∧
      (handleSkip s).timeLeft = WORK_DURATION) := by
  refine ⟨?_, ?_, ?_⟩
  · intro hw hc
    constructor <;> simp [handleTimerComplete, handleSkip, hw, hc]
  · intro hw hc
    constructor <;> simp [handleTimerComplete, handleSkip, hw, hc]
  · intro hw
    refine ⟨?_, ?_, ?_, ?_⟩ <;> simp [handleTimerComplete, handleSkip, hw]

/-- Witness for C5: completing the 4th work period (3 already completed)
routes to the long break, both on countdown completion and on skip. -/
theorem pomodoro_cycle_witness :
    (handleTimerComplete ⟨WORK_DURATION, true, .work, 3⟩).mode = .longBreak ∧
    (handleSkip ⟨WORK_DURATION, true, .work, 3⟩).mode = .longBreak :=
  (pomodoro_cycle ⟨WORK_DURATION, true, .work, 3⟩).1 rfl (by decide)

/-- On hydration no block touches `isRunning`. -/
theorem hydratePomodoro_isRunning (saved : SavedPomodoro) (s : PomodoroState) :
    (hydratePomodoro saved s).isRunning = s.isRunning := by
  unfold hydratePomodoro hydrateCount hydrateMode hydrateTimeLeft
  rcases saved with ⟨stl, sir, sm, sc⟩
  dsimp only
  rcases stl with _ | str₁ <;> rcases sm with _ | str₂ <;> rcases sc with _ | str₃ <;>
    repeat' first
      | rfl
      | split

/-- On hydration, `timeLeft` is unchanged unless `savedTimeLeft` is a
truthy string parsing to a positive number. -/
theorem hydratePomodoro_timeLeft_ignored (saved : SavedPomodoro) (s : PomodoroState)
    (h : ∀ str, saved.savedTimeLeft = some str → truthyStr (some str) = true →
      ∀ n, parseIntJS str = some n → n ≤ 0) :
    (hydratePomodoro saved s).timeLeft = s.timeLeft := by
  unfold hydratePomodoro hydrateCount hydrateMode hydrateTimeLeft
  rcases saved with ⟨stl, sir, sm, sc⟩
  dsimp only at h ⊢
  have htl :
      (match stl with
        | some str =>
          if truthyStr (some str) then
            match parseIntJS str with
            | some n => if n > 0 then { s with timeLeft := n } else s
            | none => s
          else s
        | none => s).timeLeft = s.timeLeft := by
    rcases stl with _ | str
    · rfl
    · specialize h str rfl
      by_cases ht : truthyStr (some str) = true
      · specialize h ht
        simp only [ht, if_true]
        rcases hp : parseIntJS str with _ | n
        · rfl
        · have := h n hp
          have : ¬ n > 0 := by omega
          simp [this]
      · simp [Bool.not_eq_true] at ht
        simp [ht]
  rcases sm with _ | str₂ <;> rcases sc with _ | str₃ <;>
    first
      | exact htl
      | (repeat' first
          | exact htl
          | split)

/-- **C10.** On page-load hydration of the Pomodoro timer, the running flag
is never restored — it keeps its initial value (`false`: the timer starts
paused) whatever was persisted — and a persisted time-remaining string that
parses to zero or less is ignored, leaving the default full work
duration. -/
theorem hydration_starts_paused (saved : SavedPomodoro) :
    (hydratePomodoro saved initialPomodoroState).isRunning = false ∧
    (∀ str n, saved.savedTimeLeft = some str → parseIntJS str = some n → n ≤ 0 →
      (hydratePomodoro saved initialPomodoroState).timeLeft = WORK_DURATION) := by
  constructor
  · exact hydratePomodoro_isRunning saved initialPomodoroState
  · intro str n hstr hp hn
    have : (hydratePomodoro saved initialPomodoroState).timeLeft =
        initialPomodoroState.timeLeft := by
      apply hydratePomodoro_timeLeft_ignored
      intro str₂ hstr₂ _ m hm
      rw [hstr] at hstr₂
      cases hstr₂
      rw [hp] at hm
      cases hm
      exact hn
    exact this

/-! ### Claims about the shortcut router -/

/-- **C2.** While the user is editing text, the router dispatches nothing
except `closeModals` (escape) and the Tab/Shift+Tab widget-cycling
navigation; and those are indeed not suppressed by editing: escape always
fires, and an unmodified Tab (settings modal closed, which suppresses Tab
for everyone, editing or not) fires the cycling navigation in the
direction given by Shift. -/
theorem routing_while_editing (e : KeyEvent) (env : RouterEnv)
    (h : env.editingText = true) :
    (handleKeyDown e env = .closeModals ∨ handleKeyDown e env = .noAction ∨
      handleKeyDown e env = .cycleFocus false ∨
      handleKeyDown e env = .cycleFocus true) ∧
    (e.key = "Escape" → handleKeyDown e env = .closeModals) ∧
    (e.key = "Tab" → e.metaKey = false → e.ctrlKey = false → e.altKey = false →
      env.settingsOpen = false → handleKeyDown e env = .cycleFocus e.shiftKey) := by
  refine ⟨?_, ?_, ?_⟩
  · unfold handleKeyDown
    split_ifs <;> simp_all
  · intro hesc
    simp [handleKeyDown, hesc]
  · intro htab hm hc ha hs
    cases hsk : e.shiftKey <;>
      simp [handleKeyDown, htab, hm, hc, ha, hs, hsk, h]

/-- Witness for C2: with a text field focused, an unmodified Tab still
fires the forward widget-cycling navigation. -/
theorem routing_while_editing_witness :
    handleKeyDown ⟨"Tab", false, false, false, false⟩ ⟨true, false, []⟩ =
      RouterAction.cycleFocus false :=
  (routing_while_editing ⟨"Tab", false, false, false, false⟩ ⟨true, false, []⟩
    rfl).2.2 rfl rfl rfl rfl rfl

/-- **C8, counterexample.** The key `1`, pressed outside a text field with
no meta/ctrl/alt modifier while the settings modal is open, dispatches no
action although position 1 of the default configuration holds a non-empty
widget slot — so "sets focus iff the slot at that position is non-empty"
fails as stated. -/
theorem digit_focus_counterexample :
    handleKeyDown ⟨"1", false, false, false, false⟩
        ⟨false, true, DEFAULT_CONFIGURATION⟩ = RouterAction.noAction ∧
    handleKeyDown ⟨"1", false, false, false, false⟩
        ⟨false, true, DEFAULT_CONFIGURATION⟩ ≠ RouterAction.focusWidget 1 ∧
    (DEFAULT_CONFIGURATION.find? (fun slot => slot.position == (1 : Int))).any
      (fun slot => slot.widgetType.isSome) = true := by
  decide

/-- Helper: on a digit key in range, with all gates open, `handleKeyDown`
reduces to the slot lookup of the 1–9 branch. -/
theorem handleKeyDown_digit (e : KeyEvent) (env : RouterEnv) (d : Int)
    (hkey : parseIntJS e.key = some d) (h1 : 1 ≤ d) (h9 : d ≤ 9)
    (hesc : e.key ≠ "Escape") (htab : e.key ≠ "Tab")
    (hm : e.metaKey = false) (hc : e.ctrlKey = false) (ha : e.altKey = false)
    (hedit : env.editingText = false) (hset : env.settingsOpen = false) :
    handleKeyDown e env =
      match env.config.find? (fun slot => slot.position == d) with
      | some slot =>
        if slot.widgetType ≠ none then .focusWidget d else .noAction
      | none => .noAction := by
  simp only [handleKeyDown, hesc, htab, hm, hc, ha, hedit, hset, hkey,
    Bool.or_self, Bool.false_eq_true, if_false, ite_false]
  rw [if_pos ⟨h1, h9⟩]

/-- **C8, amended.** For every digit key 1–9 pressed outside a text field
with no meta/ctrl/alt modifier **and while the settings modal is closed**,
the router sets keyboard focus to that position iff the widget
configuration contains a slot at that position whose `widgetType` is
non-null; otherwise the key press dispatches nothing (the settings-open
case, shown in the counterexample, also dispatches nothing). -/
theorem digit_focus_amended (e : KeyEvent) (env : RouterEnv) (d : Int)
    (h1 : 1 ≤ d) (h9 : d ≤ 9) (hkey : e.key = toString d)
    (hm : e.metaKey = false) (hc : e.ctrlKey = false) (ha : e.altKey = false)
    (hedit : env.editingText = false) (hset : env.settingsOpen = false) :
    (handleKeyDown e env = .focusWidget d ↔
      ∃ slot, env.config.find? (fun s => s.position == d) = some slot ∧
        slot.widgetType ≠ none) ∧
    (handleKeyDown e env = .focusWidget d ∨ handleKeyDown e env = .noAction) := by
  have hfacts : parseIntJS e.key = some d ∧ e.key ≠ "Escape" ∧ e.key ≠ "Tab" := by
    interval_cases d <;> (rw [hkey]; refine ⟨?_, ?_, ?_⟩ <;> decide)
  have hmain := handleKeyDown_digit e env d hfacts.1 h1 h9 hfacts.2.1 hfacts.2.2
    hm hc ha hedit hset
  rcases hf : env.config.find? (fun slot => slot.position == d) with _ | slot
  · rw [hf] at hmain
    dsimp only at hmain
    refine ⟨?_, Or.inr hmain⟩
    rw [hmain]
    constructor
    · intro hcontra
      cases hcontra
    · rintro ⟨slot, hs, -⟩
      rw [hf] at hs
      cases hs
  · rw [hf] at hmain
    dsimp only at hmain
    by_cases hw : slot.widgetType ≠ none
    · rw [if_pos hw] at hmain
      exact ⟨⟨fun _ => ⟨slot, hf, hw⟩, fun _ => hmain⟩, Or.inl hmain⟩
    · rw [if_neg hw] at hmain
      refine ⟨?_, Or.inr hmain⟩
      rw [hmain]
      constructor
      · intro hcontra
        cases hcontra
      · rintro ⟨slot₂, hs₂, hw₂⟩
        rw [hf] at hs₂
        cases hs₂
        exact absurd hw₂ hw

/-- Witness for the amended C8: key `3` with the settings modal closed
focuses position 3 of the default configuration. -/
theorem digit_focus_amended_witness :
    handleKeyDown ⟨"3", false, false, false, false⟩
      ⟨false, false, DEFAULT_CONFIGURATION⟩ = RouterAction.focusWidget 3 := by
  have h := digit_focus_amended ⟨"3", false, false, false, false⟩
    ⟨false, false, DEFAULT_CONFIGURATION⟩ 3 (by decide) (by decide) (by decide)
    rfl rfl rfl rfl rfl
  exact h.1.mpr ⟨⟨3, some "system"⟩, by decide, by decide⟩

/-! ### Claims about the selection codec -/

/-- Clamping is `min` against the node's content length. -/
theorem clampOffsetForNode_eq_min (node : DomNode) (offset : Nat) :
    clampOffsetForNode node offset = min offset (nodeLength node) := by
  cases node <;> rfl

/-- The path walk fails exactly when some index of the path is out of
bounds at its depth: a prefix of the path resolves to a node whose child
count the next index reaches. -/
theorem getNodeFromPath_eq_none_iff (path : List Nat) (root : DomNode) :
    getNodeFromPath root path = none ↔
      ∃ k n i, getNodeFromPath root (path.take k) = some n ∧
        path[k]? = some i ∧ (childNodes n).length ≤ i := by
  induction path generalizing root with
  | nil =>
    simp [getNodeFromPath]
  | cons index rest ih =>
    rcases hc : (childNodes root)[index]? with _ | child
    · simp only [getNodeFromPath, hc]
      constructor
      · intro _
        exact ⟨0, root, index, by simp [getNodeFromPath], by simp,
          by simpa using List.getElem?_eq_none_iff.mp hc⟩
      · intro _
        trivial
    · have hlt : index < (childNodes root).length :=
        (List.getElem?_eq_some.mp hc).1
      simp only [getNodeFromPath, hc]
      rw [ih child]
      constructor
      · rintro ⟨k, n, i, h1, h2, h3⟩
        refine ⟨k + 1, n, i, ?_, by simpa using h2, h3⟩
        simpa [List.take_succ_cons, getNodeFromPath, hc] using h1
      · rintro ⟨k, n, i, h1, h2, h3⟩
        cases k with
        | zero =>
          simp only [List.take_zero, getNodeFromPath, Option.some.injEq] at h1
          subst h1
          simp only [List.getElem?_cons_zero, Option.some.injEq] at h2
          subst h2
          omega
        | succ k =>
          refine ⟨k, n, i, ?_, by simpa using h2, h3⟩
          simpa [List.take_succ_cons, getNodeFromPath, hc] using h1

/-- **C3.** For a range whose endpoints both lie inside the editable root
(so their paths resolve; a live DOM range also keeps each offset within its
container's content length), serializing and immediately deserializing
against the same unchanged tree succeeds and yields a range with the same
start node, start offset, end node and end offset. -/
theorem selection_roundtrip (root : DomNode) (r : DomRange) (sn en : DomNode)
    (hs : getNodeFromPath root r.startPath = some sn)
    (he : getNodeFromPath root r.endPath = some en)
    (hso : r.startOffset ≤ nodeLength sn)
    (heo : r.endOffset ≤ nodeLength en) :
    ∃ snap, serializeRange r root = some snap ∧
      deserializeRange snap root = some r := by
  refine ⟨⟨r.startPath, r.startOffset, r.endPath, r.endOffset⟩, ?_, ?_⟩
  · simp [serializeRange, isNodeWithin, hs, he]
  · simp only [deserializeRange, hs, he]
    rw [clampOffsetForNode_eq_min, clampOffsetForNode_eq_min,
      Nat.min_eq_left hso, Nat.min_eq_left heo]

/-- Witness for C3: a selection of characters 1–3 of the text node inside a
one-child root round-trips unchanged. -/
theorem selection_roundtrip_witness :
    ∃ snap,
      serializeRange ⟨[0], 1, [0], 3⟩ (DomNode.element [DomNode.text "hello"]) =
        some snap ∧
      deserializeRange snap (DomNode.element [DomNode.text "hello"]) =
        some ⟨[0], 1, [0], 3⟩ :=
  selection_roundtrip (DomNode.element [DomNode.text "hello"]) ⟨[0], 1, [0], 3⟩
    (DomNode.text "hello") (DomNode.text "hello") rfl rfl (by decide) (by decide)

/-- **C4.** `deserializeRange` (a total function — it never throws) returns
`none` exactly when the start or end path has an index that is out of
bounds at some depth of the current tree, and on success clamps each offset
to the resolved node's content length (text length for text nodes, child
count for elements) instead of failing. -/
theorem deserialize_degrades (snap : SerializedSelection) (root : DomNode) :
    (deserializeRange snap root = none ↔
      (∃ k n i, getNodeFromPath root (snap.startPath.take k) = some n ∧
        snap.startPath[k]? = some i ∧ (childNodes n).length ≤ i) ∨
      (∃ k n i, getNodeFromPath root (snap.endPath.take k) = some n ∧
        snap.endPath[k]? = some i ∧ (childNodes n).length ≤ i)) ∧
    (∀ sn en, getNodeFromPath root snap.startPath = some sn →
      getNodeFromPath root snap.endPath = some en →
      deserializeRange snap root =
        some ⟨snap.startPath, min snap.startOffset (nodeLength sn),
              snap.endPath, min snap.endOffset (nodeLength en)⟩) := by
  constructor
  · rw [← getNodeFromPath_eq_none_iff, ← getNodeFromPath_eq_none_iff]
    unfold deserializeRange
    rcases hs : getNodeFromPath root snap.startPath with _ | sn <;>
      rcases he : getNodeFromPath root snap.endPath with _ | en <;>
        simp
  · intro sn en hs he
    simp only [deserializeRange, hs, he]
    rw [clampOffsetForNode_eq_min, clampOffsetForNode_eq_min]

/-- Witness for C4: against the root `element [text "ab"]`, the snapshot
with start `[0]` at offset 99 and end `[]` at offset 2 resolves with both
offsets clamped (99 ↦ 2, the text length; 2 ↦ 1, the child count). -/
theorem deserialize_degrades_witness :
    deserializeRange ⟨[0], 99, [], 2⟩ (DomNode.element [DomNode.text "ab"]) =
      some ⟨[0], 2, [], 1⟩ := by
  have h := (deserialize_degrades ⟨[0], 99, [], 2⟩
      (DomNode.element [DomNode.text "ab"])).2
    (DomNode.text "ab") (DomNode.element [DomNode.text "ab"]) rfl rfl
  rw [h]
  rfl

/-! ### Claims about the notepad tab collection -/

/-- The content-saving first half of `deleteTab` only rewrites tab
contents: ids (hence also the length), the active tab and the editor are
untouched. -/
theorem deleteTabSaveContent_state (tabId : String) (s : NotepadState) :
    (deleteTabSaveContent tabId s).tabs.map NotepadTab.id = s.tabs.map NotepadTab.id ∧
    (deleteTabSaveContent tabId s).tabs.length = s.tabs.length ∧
    (deleteTabSaveContent tabId s).activeTabId = s.activeTabId ∧
    (deleteTabSaveContent tabId s).editorContent = s.editorContent := by
  unfold deleteTabSaveContent
  rcases hec : s.editorContent with _ | current
  · exact ⟨rfl, rfl, rfl, hec⟩
  · dsimp only
    by_cases ha : s.activeTabId = some tabId
    · rw [if_pos ha]
      refine ⟨?_, ?_, rfl, rfl⟩
      · rw [List.map_map]
        apply List.map_congr_left
        intro t _
        by_cases ht : t.id = tabId <;> simp [ht]
      · rw [List.length_map]
    · rw [if_neg ha]
      exact ⟨rfl, rfl, rfl, hec⟩

/-- Filtering tabs by id commutes with projecting ids. -/
theorem map_id_filter (l : List NotepadTab) (tabId : String) :
    (l.filter fun t => t.id != tabId).map NotepadTab.id =
      (l.map NotepadTab.id).filter fun i => i != tabId := by
  induction l with
  | nil => rfl
  | cons hd tl ih =>
    by_cases h : (hd.id != tabId) = true
    · simp [List.filter_cons, h, ih]
    · simp [List.filter_cons, h, ih]

/-- The main `setTabs` updater with more than one tab (in fact any count
other than one) filters the closed id out. -/
theorem deleteTabUpdate_many (tabId : String) (s : NotepadState)
    (h : s.tabs.length ≠ 1) :
    (deleteTabUpdate tabId s).tabs = s.tabs.filter fun t => t.id != tabId := by
  unfold deleteTabUpdate
  rw [if_neg h]
  dsimp only
  repeat' first
    | rfl
    | split

/-- The main `setTabs` updater with a single remaining tab and a mounted
editor keeps the tab (same id) and empties its content. -/
theorem deleteTabUpdate_single (tabId : String) (s : NotepadState)
    (h : s.tabs.length = 1) (c : String) (hc : s.editorContent = some c) :
    (deleteTabUpdate tabId s).tabs.map NotepadTab.id = s.tabs.map NotepadTab.id ∧
    ∀ t ∈ (deleteTabUpdate tabId s).tabs, t.content = "" := by
  unfold deleteTabUpdate
  rw [if_pos h]
  rcases hst : s.tabs with _ | ⟨t0, rest⟩
  · rw [hst] at h
    simp at h
  · rw [hst] at h
    simp only [List.length_cons] at h
    have hrest : rest = [] := List.length_eq_zero.mp (by omega)
    subst hrest
    simp only [hc, hst]
    refine ⟨rfl, ?_⟩
    intro t ht
    simp only [List.mem_singleton] at ht
    subst ht
    rfl

/-- **C9.** Closing a tab while more than one tab exists removes exactly
that tab from the collection (the remaining ids, in order, are the original
ids with the closed one filtered out); closing the only remaining tab (with
the editor mounted, as it is whenever the close button is rendered) keeps
that one tab in the collection and clears its content to empty. -/
theorem close_tab (s : NotepadState) (tabId : String) :
    (1 < s.tabs.length →
      (deleteTab tabId s).tabs.map NotepadTab.id =
        (s.tabs.map NotepadTab.id).filter fun i => i != tabId) ∧
    (s.tabs.length = 1 → s.editorContent.isSome →
      (deleteTab tabId s).tabs.map NotepadTab.id = s.tabs.map NotepadTab.id ∧
      ∀ t ∈ (deleteTab tabId s).tabs, t.content = "") := by
  obtain ⟨hids, hlen, -, hec⟩ := deleteTabSaveContent_state tabId s
  constructor
  · intro hmany
    unfold deleteTab
    rw [deleteTabUpdate_many tabId _ (by omega), map_id_filter, hids]
  · intro hone hed
    unfold deleteTab
    obtain ⟨c, hc⟩ := Option.isSome_iff_exists.mp hed
    obtain ⟨h1, h2⟩ := deleteTabUpdate_single tabId (deleteTabSaveContent tabId s)
      (by omega) c (by rw [hec, hc])
    exact ⟨h1.trans hids, h2⟩

/-- Witness for C9: closing tab `"a"` of a two-tab notepad leaves exactly
tab `"b"`; closing the only tab of a one-tab notepad keeps it with empty
content. -/
theorem close_tab_witness :
    (deleteTab "a" ⟨[⟨"a", "A", "x"⟩, ⟨"b", "B", "y"⟩], some "a", some "x", "x"⟩).tabs.map
        NotepadTab.id = ["b"] ∧
    (deleteTab "a" ⟨[⟨"a", "A", "x"⟩], some "a", some "x", "x"⟩).tabs.map
        NotepadTab.id = ["a"] := by
  constructor
  · have h := (close_tab ⟨[⟨"a", "A", "x"⟩, ⟨"b", "B", "y"⟩], some "a", some "x", "x"⟩
      "a").1 (by decide)
    rw [h]
    rfl
  · have h := (close_tab ⟨[⟨"a", "A", "x"⟩], some "a", some "x", "x"⟩ "a").2 rfl rfl
    rw [h.1]
    rfl

/-- Witness for C10: a persisted snapshot claiming a running timer with
`"0"` seconds left hydrates to a paused timer with the full work
duration. -/
theorem hydration_starts_paused_witness :
    (hydratePomodoro ⟨some "0", some "true", some "work", some "2"⟩
      initialPomodoroState).isRunning = false ∧
    (hydratePomodoro ⟨some "0", some "true", some "work", some "2"⟩
      initialPomodoroState).timeLeft = WORK_DURATION := by
  refine ⟨(hydration_starts_paused ⟨some "0", some "true", some "work", some "2"⟩).1, ?_⟩
  exact (hydration_starts_paused ⟨some "0", some "true", some "work", some "2"⟩).2
    "0" 0 rfl (by decide) (by decide)

end HyperDash
